import Mathlib

/-!
Verification development for the AI code-review service: a shallow
embedding of the review orchestration pipeline (webhook controller,
file filter, comment gate, LLM-response validation, result aggregation
and CI test-result rendering), translated from the Python sources in
scripts/web_server.py, scripts/ai_reviewer.py, scripts/gemini_client.py
and scripts/report_generator.py.

Python dictionaries holding JSON-shaped data are embedded as the `Json`
inductive below; dictionaries of known schema (file records, status
records, configuration) are embedded as structures whose optional fields
mirror dict.get access. Machine floats carrying review scores are
embedded as exact rationals.
-/

/-- JSON values as Python json.loads produces them: None, bool, numbers
(int and float collapsed into one exact rational constructor), str, list
and dict (an insertion-ordered association list, as Python dicts are). -/
inductive Json where
  | null
  | bool (b : Bool)
  | num (q : Rat)
  | str (s : String)
  | arr (xs : List Json)
  | obj (kvs : List (String × Json))

/-- Python d.get(k) on a dict: the value under the first (unique) binding
of k, none when the key is absent or the value is not a dict. -/
def jget (j : Json) (k : String) : Option Json :=
  match j with
  | .obj kvs => kvs.lookup k
  | _ => none

/-- Python truthiness of a JSON value: None, False, 0, empty string, empty
list and empty dict are falsy. -/
def jtruthy (j : Json) : Bool :=
  match j with
  | .null => false
  | .bool b => b
  | .num q => !(q == 0)
  | .str s => !(s == "")
  | .arr xs => !xs.isEmpty
  | .obj kvs => !kvs.isEmpty

/-- Python d[k] = v on a dict: updates the value in place when the key
exists (keeping its position) and appends a new binding otherwise. -/
def objUpd : List (String × Json) → String → Json → List (String × Json)
  | [], k, v => [(k, v)]
  | (k0, v0) :: rest, k, v =>
    if k0 = k then (k0, v) :: rest else (k0, v0) :: objUpd rest k v

/-- Python k in d on a dict. -/
def objHas (kvs : List (String × Json)) (k : String) : Bool :=
  (kvs.lookup k).isSome

/-- Python isinstance(j, dict). -/
def isObjJ (j : Json) : Bool :=
  match j with
  | .obj _ => true
  | _ => false

/-! ## Orchestration controller (scripts/web_server.py)

The webhook handler gitlab_webhook and the run_review lifecycle it
spawns. The live table active_reviews is a string-keyed association list
of status records; the handler itself never writes the table, the
spawned run does (begin, complete or fail, then evict after a delay).
Timestamps are opaque strings supplied by the caller. -/

/-- One record of the active_reviews table: the dict built inside
run_review. The status field holds "running", "completed" or "failed". -/
structure StatusRecord where
  status : String
  started_at : String
  project_id : Nat
  mr_iid : Nat
  completed_at : Option String
  error : Option String
  deriving DecidableEq

/-- The fields of a GitLab merge-request webhook payload that
gitlab_webhook reads: object_kind, object_attributes.action,
object_attributes.iid and project.id (the two ids are absent when the
payload lacks them, mirroring dict.get returning None). -/
structure Webhook where
  object_kind : String
  action : String
  project_id : Option Nat
  mr_iid : Option Nat
  deriving DecidableEq

/-- The outcome gitlab_webhook reports for one delivery. -/
inductive SubmitOutcome where
  | eventNotSupported (eventType : String)
  | missingData
  | actionNotProcessed (action : String)
  | alreadyInProgress (key : String)
  | started (key : String)
  deriving DecidableEq

/-- The dedup identity key, Python f-string "project:iid". -/
def review_key (pid iid : Nat) : String :=
  toString pid ++ ":" ++ toString iid

/-- gitlab_webhook, after secret verification and JSON parsing: rejects
non merge_request events, missing or falsy ids (Python not 0 is true, so
id 0 counts as missing), unsupported actions, and a key already present
in active_reviews (whatever the state of its record); otherwise it
starts the background run. The handler does not modify the table. -/
def submit (tbl : List (String × StatusRecord)) (wk : Webhook) : SubmitOutcome :=
  if wk.object_kind ≠ "merge_request" then .eventNotSupported wk.object_kind
  else
    match wk.mr_iid, wk.project_id with
    | some iid, some pid =>
      if iid = 0 || pid = 0 then .missingData
      else if !(wk.action == "open" || wk.action == "update" || wk.action == "reopen") then
        .actionNotProcessed wk.action
      else if (tbl.lookup (review_key pid iid)).isSome then
        .alreadyInProgress (review_key pid iid)
      else .started (review_key pid iid)
    | _, _ => .missingData

/-- Python d[k] = v on the status table (update in place or append). -/
def tblSet : List (String × StatusRecord) → String → StatusRecord → List (String × StatusRecord)
  | [], k, v => [(k, v)]
  | (k0, v0) :: rest, k, v =>
    if k0 = k then (k0, v) :: rest else (k0, v0) :: tblSet rest k v

/-- First action of run_review once the semaphore slot is acquired:
install the fresh Running record for the unit. -/
def begin_run (tbl : List (String × StatusRecord)) (pid iid : Nat) (t : String) :
    List (String × StatusRecord) :=
  tblSet tbl (review_key pid iid)
    { status := "running", started_at := t, project_id := pid, mr_iid := iid,
      completed_at := none, error := none }

/-- run_review on success: status becomes completed and completed_at is
stamped (a no-op when the record is gone, as the code guards membership). -/
def complete_run (tbl : List (String × StatusRecord)) (key : String) (t : String) :
    List (String × StatusRecord) :=
  tbl.map fun kr =>
    if kr.1 = key then (kr.1, { kr.2 with status := "completed", completed_at := some t })
    else kr

/-- run_review on an unhandled exception: status becomes failed, the
error text and completed_at are stamped (membership-guarded in the code). -/
def fail_run (tbl : List (String × StatusRecord)) (key : String) (err t : String) :
    List (String × StatusRecord) :=
  tbl.map fun kr =>
    if kr.1 = key then
      (kr.1, { kr.2 with status := "failed", error := some err, completed_at := some t })
    else kr

/-- The cleanup thread after the 300 second delay: del active_reviews[key]. -/
def evict_review (tbl : List (String × StatusRecord)) (key : String) :
    List (String × StatusRecord) :=
  tbl.filter fun kr => kr.1 ≠ key

/-! ## Comment gate (scripts/ai_reviewer.py, _should_post_comment) -/

/-- The severity_levels dict of _should_post_comment. -/
def severity_levels : List (String × Nat) := [("low", 1), ("medium", 2), ("high", 3)]

/-- _should_post_comment: the comment severity (default "low", unknown
values level 1) must reach the configured threshold (unknown threshold
values level 2, i.e. medium). -/
def should_post (c : Json) (threshold : String) : Bool :=
  let sevJ := (jget c "severity").getD (Json.str "low")
  let clev :=
    match sevJ with
    | Json.str s => (severity_levels.lookup s).getD 1
    | _ => 1
  let tlev := (severity_levels.lookup threshold).getD 2
  decide (tlev ≤ clev)

/-- Severity rank written out from the spec wording low < medium < high,
for stating the gate claims. -/
def sevOrd (s : String) : Nat :=
  if s = "low" then 1 else if s = "medium" then 2 else if s = "high" then 3 else 0

/-- The effective threshold per the spec wording: unknown threshold
values default to medium. -/
def effThreshold (t : String) : String :=
  if t = "low" || t = "medium" || t = "high" then t else "medium"

/-- A comment whose severity field is missing, not a string, or not one
of low, medium, high (the domain where the gate falls back to level 1). -/
def gateSevMissingOrUnknown (c : Json) : Bool :=
  match jget c "severity" with
  | none => true
  | some (Json.str s) => !(s == "low" || s == "medium" || s == "high")
  | some _ => true

/-! ## Glob matching (scripts/ai_reviewer.py, _matches_patterns)

The code calls fnmatch.fnmatch; on POSIX os.path.normcase is the
identity, so matching compares characters verbatim (case-sensitive) and
a star matches any run of characters, the path separator included.
Character classes in brackets are not modelled (no pattern in this
development uses them); a question mark matches exactly one character. -/

/-- The whitespace characters Python str.strip removes (the ASCII range;
unicode whitespace is not modelled). -/
def isPyWs (c : Char) : Bool :=
  c = ' ' || c = '\t' || c = '\n' || c = '\r' || c = Char.ofNat 11 || c = Char.ofNat 12

/-- Drop leading Python whitespace from a character list. -/
def dropPyWs : List Char → List Char
  | [] => []
  | c :: cs => if isPyWs c then dropPyWs cs else c :: cs

/-- Python str.strip() with no arguments. -/
def trimStr (s : String) : String :=
  String.mk ((dropPyWs (dropPyWs s.toList).reverse).reverse)

/-- The star state of fnmatch matching: try the continuation after
skipping zero or more arbitrary characters. -/
def starLoop (k : List Char → Bool) : List Char → Bool
  | [] => k []
  | s@(_ :: sr) => k s || starLoop k sr

/-- fnmatch pattern matching over characters, pattern first. -/
def globMatch : List Char → List Char → Bool
  | [], s => s.isEmpty
  | c :: pr, s =>
    if c = '*' then starLoop (globMatch pr) s
    else
      match s with
      | [] => false
      | d :: sr => if c = '?' then globMatch pr sr else (c == d && globMatch pr sr)

/-- fnmatch.fnmatch on POSIX. -/
def fnmatchB (name pat : String) : Bool :=
  globMatch pat.toList name.toList

/-- _matches_patterns: any non-blank pattern (stripped) matches the path. -/
def matches_patterns (fp : String) (patterns : List String) : Bool :=
  patterns.any fun p => !(trimStr p == "") && fnmatchB fp (trimStr p)

/-- Modelled from the spec: glob semantics in which a star matches any
run of non-separator characters (never across a slash); written from the
spec wording, to be compared with the fnmatch semantics of the code. -/
def specStarLoop (k : List Char → Bool) : List Char → Bool
  | [] => k []
  | s@(d :: sr) => k s || (!(d == '/') && specStarLoop k sr)

/-- Modelled from the spec: the matcher whose star never crosses the
path separator (see specStarLoop); literals and the single-character
wildcard behave as in fnmatch. -/
def specGlobMatch : List Char → List Char → Bool
  | [], s => s.isEmpty
  | c :: pr, s =>
    if c = '*' then specStarLoop (specGlobMatch pr) s
    else
      match s with
      | [] => false
      | d :: sr => if c = '?' then specGlobMatch pr sr else (c == d && specGlobMatch pr sr)

/-- A pattern fragment with no wildcard characters. -/
def wildFree (t : List Char) : Bool :=
  t.all fun c => !(c == '*') && !(c == '?') && !(c == '[')

/-! ## File filter (scripts/ai_reviewer.py, _filter_files) -/

/-- One entry of the changed-file list handed to the filter: new_path is
present for merge-request change records, path for repository listings;
deleted_file mirrors dict.get with default False. The code assumes one
of the two path keys is present, so path is embedded as total. -/
structure FileInfo where
  new_path : Option String
  path : String
  deleted_file : Option Bool
  diff : Option String

/-- The path the reviewer uses for a file: new_path when the key is
present, else path. -/
def filePathOf (fi : FileInfo) : String :=
  fi.new_path.getD fi.path

/-- The configuration fields _filter_files reads. -/
structure ReviewConfig where
  include_patterns : List String
  exclude_patterns : List String
  languages : List String

/-- The static language -> extensions table of _matches_languages. -/
def language_extensions : List (String × List String) :=
  [("python", [".py", ".pyw"]),
   ("javascript", [".js", ".mjs"]),
   ("typescript", [".ts", ".tsx"]),
   ("java", [".java"]),
   ("go", [".go"]),
   ("rust", [".rs"]),
   ("cpp", [".cpp", ".cc", ".cxx", ".c++", ".hpp", ".h"]),
   ("csharp", [".cs"]),
   ("php", [".php"]),
   ("ruby", [".rb"]),
   ("html", [".html", ".htm"]),
   ("css", [".css", ".scss", ".sass"]),
   ("yaml", [".yml", ".yaml"]),
   ("json", [".json"]),
   ("xml", [".xml"]),
   ("sql", [".sql"]),
   ("shell", [".sh", ".bash", ".zsh"])]

/-- Index of the last occurrence of a character, counting from the head. -/
def lastIdxAux (c : Char) : List Char → Nat → Option Nat
  | [], _ => none
  | x :: xs, i =>
    match lastIdxAux c xs (i + 1) with
    | some j => some j
    | none => if x = c then some i else none

/-- Split a character list on the path separator. -/
def splitSlashAux (acc : List Char) : List Char → List String
  | [] => [String.mk acc.reverse]
  | c :: cs =>
    if c = '/' then String.mk acc.reverse :: splitSlashAux [] cs
    else splitSlashAux (c :: acc) cs

/-- The components of a path string between slashes. -/
def splitSlash (s : String) : List String :=
  splitSlashAux [] s.toList

/-- The last path component as pathlib computes name: empty and
single-dot components are dropped, the last remaining component (if
any) is the name. -/
def lastNameOf (fp : String) : String :=
  ((((splitSlash fp).filter fun comp => !(comp == "") && !(comp == ".")).getLast?).getD "")

/-- pathlib Path(fp).suffix: the extension of the name from its last dot,
empty when the dot is absent, leading or trailing. -/
def suffixOf (fp : String) : String :=
  let name := lastNameOf fp
  let cs := name.toList
  match lastIdxAux '.' cs 0 with
  | some i => if 0 < i ∧ i < cs.length - 1 then String.mk (cs.drop i) else ""
  | none => ""

/-- Python str.lower over the characters (the extensions compared are
ASCII). -/
def toLowerStr (s : String) : String :=
  String.mk (s.toList.map Char.toLower)

/-- _matches_languages: the lowercased suffix of the path is listed under
one of the (stripped, lowercased) requested languages. -/
def matches_languages (fp : String) (languages : List String) : Bool :=
  let ext := toLowerStr (suffixOf fp)
  languages.any fun lang =>
    match language_extensions.lookup (toLowerStr (trimStr lang)) with
    | some exts => exts.contains ext
    | none => false

/-- The per-file predicate of the _filter_files loop: drop deleted files,
then excluded paths, then (when include patterns are given) paths no
include pattern matches, then (when a language list is given) paths of
no requested language. -/
def keep_file (cfg : ReviewConfig) (fi : FileInfo) : Bool :=
  let fp := filePathOf fi
  if fi.deleted_file.getD false then false
  else if matches_patterns fp cfg.exclude_patterns then false
  else if !cfg.include_patterns.isEmpty && !(matches_patterns fp cfg.include_patterns) then false
  else if !cfg.languages.isEmpty && !(matches_languages fp cfg.languages) then false
  else true

/-- _filter_files: the loop with its continue statements, preserving the
input order of the kept records. -/
def filter_files (cfg : ReviewConfig) : List FileInfo → List FileInfo
  | [] => []
  | fi :: rest =>
    if keep_file cfg fi then fi :: filter_files cfg rest else filter_files cfg rest

/-! ## LLM response handling (scripts/gemini_client.py)

review_code parses the model response with json.loads; on a parse error
it falls back to _extract_json_from_response (a fenced-code-block regex,
then the outermost brace span, then a fixed synthetic result); any other
exception is caught and an error dict is returned. json.loads itself is
the Python standard library; it is embedded below as a fuel-indexed
recursive-descent parser over characters (exponents, unicode escapes and
the strictness about leading zeros are not modelled; no input in this
development exercises them). -/

/-- The JSON whitespace characters json.loads skips. -/
def isJsonWs (c : Char) : Bool :=
  c = ' ' || c = '\t' || c = '\n' || c = '\r'

/-- Skip JSON whitespace. -/
def skipWs : List Char → List Char
  | [] => []
  | c :: cs => if isJsonWs c then skipWs cs else c :: cs

/-- Accumulate a run of decimal digits: value, digit count, rest. -/
def digitsAux (acc cnt : Nat) : List Char → Nat × Nat × List Char
  | [] => (acc, cnt, [])
  | c :: cs =>
    if c.isDigit then digitsAux (acc * 10 + (c.toNat - 48)) (cnt + 1) cs
    else (acc, cnt, c :: cs)

/-- A JSON number: optional minus, digits, optional fraction. -/
def parseNumberV (cs : List Char) : Option (Rat × List Char) :=
  let signed : Bool × List Char :=
    match cs with
    | '-' :: t => (true, t)
    | _ => (false, cs)
  match signed.2 with
  | c :: _ =>
    if c.isDigit then
      let (ip, _, cs2) := digitsAux 0 0 signed.2
      let frac : Rat × List Char :=
        match cs2 with
        | '.' :: t =>
          match t with
          | d :: _ =>
            if d.isDigit then
              let (fp, k, cs3) := digitsAux 0 0 t
              (((ip : Rat)) + (fp : Rat) / ((10 : Rat) ^ k), cs3)
            else ((ip : Rat), cs2)
          | [] => ((ip : Rat), cs2)
        | _ => ((ip : Rat), cs2)
      some (if signed.1 then -frac.1 else frac.1, frac.2)
    else none
  | [] => none

/-- One escape character of a JSON string. -/
def escCharOf (c : Char) : Option Char :=
  if c = '"' then some '"'
  else if c = '\\' then some '\\'
  else if c = '/' then some '/'
  else if c = 'n' then some '\n'
  else if c = 't' then some '\t'
  else if c = 'r' then some '\r'
  else if c = 'b' then some (Char.ofNat 8)
  else if c = 'f' then some (Char.ofNat 12)
  else none

/-- The body of a JSON string after the opening quote. -/
def parseStringBody (acc : List Char) : List Char → Option (String × List Char)
  | [] => none
  | '"' :: rest => some (String.mk acc.reverse, rest)
  | '\\' :: rest =>
    match rest with
    | [] => none
    | e :: rest2 =>
      match escCharOf e with
      | some c => parseStringBody (c :: acc) rest2
      | none => none
  | c :: rest => parseStringBody (c :: acc) rest

mutual

/-- A JSON value at the head of the input (fuel-indexed). -/
def parseValueV : Nat → List Char → Option (Json × List Char)
  | 0, _ => none
  | _ + 1, [] => none
  | fuel + 1, c :: rest =>
    if c = Char.ofNat 123 then
      let cs1 := skipWs rest
      match cs1 with
      | d :: rest2 =>
        if d = Char.ofNat 125 then some (Json.obj [], rest2)
        else parseMembersV fuel [] cs1
      | [] => none
    else if c = '[' then
      let cs1 := skipWs rest
      match cs1 with
      | d :: rest2 =>
        if d = ']' then some (Json.arr [], rest2)
        else parseElemsV fuel [] cs1
      | [] => none
    else if c = '"' then
      match parseStringBody [] rest with
      | some (s, rest2) => some (Json.str s, rest2)
      | none => none
    else if c = 't' then
      match rest with
      | 'r' :: 'u' :: 'e' :: rest2 => some (Json.bool true, rest2)
      | _ => none
    else if c = 'f' then
      match rest with
      | 'a' :: 'l' :: 's' :: 'e' :: rest2 => some (Json.bool false, rest2)
      | _ => none
    else if c = 'n' then
      match rest with
      | 'u' :: 'l' :: 'l' :: rest2 => some (Json.null, rest2)
      | _ => none
    else
      match parseNumberV (c :: rest) with
      | some (q, rest2) => some (Json.num q, rest2)
      | none => none

/-- Members of a JSON object after the opening brace (not at the closing
brace); duplicate keys keep the first position with the last value, as a
Python dict does. -/
def parseMembersV : Nat → List (String × Json) → List Char → Option (Json × List Char)
  | 0, _, _ => none
  | fuel + 1, acc, cs =>
    match skipWs cs with
    | '"' :: rest =>
      match parseStringBody [] rest with
      | some (k, rest2) =>
        match skipWs rest2 with
        | ':' :: rest3 =>
          match parseValueV fuel (skipWs rest3) with
          | some (v, rest4) =>
            let acc2 := objUpd acc k v
            match skipWs rest4 with
            | ',' :: rest5 => parseMembersV fuel acc2 rest5
            | d :: rest5 =>
              if d = Char.ofNat 125 then some (Json.obj acc2, rest5) else none
            | [] => none
          | none => none
        | _ => none
      | none => none
    | _ => none

/-- Elements of a JSON array after the opening bracket (not at the
closing bracket). -/
def parseElemsV : Nat → List Json → List Char → Option (Json × List Char)
  | 0, _, _ => none
  | fuel + 1, acc, cs =>
    match parseValueV fuel (skipWs cs) with
    | some (v, rest) =>
      match skipWs rest with
      | ',' :: rest2 => parseElemsV fuel (acc ++ [v]) rest2
      | ']' :: rest2 => some (Json.arr (acc ++ [v]), rest2)
      | _ => none
    | none => none

end

/-- json.loads: the whole string, surrounding whitespace allowed, must be
one JSON value; none models json.JSONDecodeError. -/
def jsonLoads (s : String) : Option Json :=
  match parseValueV (4 * (s.length + 1)) (skipWs s.toList) with
  | some (j, rest) => if (skipWs rest).isEmpty then some j else none
  | none => none

/-- Python float(j) as _validate_review_result applies it to the raw
overall_score: numbers pass through, bools become 0 or 1, numeric
strings are parsed; anything else (and a non-numeric string) raises,
which the caller turns into the default score. -/
def parseFloatStr (s : String) : Option Rat :=
  let cs := skipWs s.toList
  let signed : Bool × List Char :=
    match cs with
    | '-' :: t => (true, t)
    | '+' :: t => (false, t)
    | _ => (false, cs)
  let (ip, c1, cs2) := digitsAux 0 0 signed.2
  let afterDot : Rat × Nat × List Char :=
    match cs2 with
    | '.' :: t =>
      let (fp, c2, cs3) := digitsAux 0 0 t
      (((ip : Rat)) + (fp : Rat) / ((10 : Rat) ^ c2), c2, cs3)
    | _ => ((ip : Rat), 0, cs2)
  if c1 + afterDot.2.1 = 0 then none
  else if (skipWs afterDot.2.2).isEmpty then
    some (if signed.1 then -afterDot.1 else afterDot.1)
  else none

/-- The float view _validate_review_result gets of a raw JSON value. -/
def floatOf (j : Json) : Option Rat :=
  match j with
  | .num q => some q
  | .bool b => some (if b then 1 else 0)
  | .str s => parseFloatStr s
  | _ => none

/-- The valid finding categories of _validate_review_result. -/
def validCategories : List String :=
  ["security", "performance", "quality", "logic", "style", "documentation"]

/-- The severity check of the comment-validation loop: a raw severity
value that is not one of the three documented strings becomes medium. -/
def coerceSeverity (sev : Json) : Json :=
  match sev with
  | Json.str s => if s == "low" || s == "medium" || s == "high" then Json.str s else Json.str "medium"
  | _ => Json.str "medium"

/-- The category check of the comment-validation loop: a raw category
value outside the documented set becomes quality. -/
def coerceCategory (cat : Json) : Json :=
  match cat with
  | Json.str s => if validCategories.contains s then Json.str s else Json.str "quality"
  | _ => Json.str "quality"

/-- One comment of the raw response, validated: non-dict comments are
dropped by the isinstance check; a dict comment is rebuilt with the
seven documented fields, severity and category coerced to medium and
quality when missing or invalid. -/
def validateComment (c : Json) : Option Json :=
  match c with
  | .obj kvs =>
    some (Json.obj
      [("line_number", (kvs.lookup "line_number").getD Json.null),
       ("severity", coerceSeverity ((kvs.lookup "severity").getD (Json.str "medium"))),
       ("category", coerceCategory ((kvs.lookup "category").getD (Json.str "quality"))),
       ("title", (kvs.lookup "title").getD (Json.str "Code Review")),
       ("description", (kvs.lookup "description").getD (Json.str "")),
       ("suggestion", (kvs.lookup "suggestion").getD (Json.str "")),
       ("impact", (kvs.lookup "impact").getD (Json.str ""))])
  | _ => none

/-- Python iteration over the comments value as the validation loop sees
it: a list yields its elements; a string or dict yields only non-dict
items (characters or keys), all skipped by the isinstance check; other
values raise TypeError. -/
def commentsIter (v : Json) : Option (List Json) :=
  match v with
  | .arr xs => some xs
  | .str _ => some []
  | .obj _ => some []
  | _ => none

/-- Ensure a field holds a list: missing or non-list values are replaced
by the empty list (the positive_aspects and recommendations cleanup). -/
def fixListField (kvs : List (String × Json)) (k : String) : List (String × Json) :=
  match kvs.lookup k with
  | some (Json.arr _) => kvs
  | some _ => objUpd kvs k (Json.arr [])
  | none => objUpd kvs k (Json.arr [])

/-- The required-field loop of _validate_review_result: a missing
overall_score or summary becomes the empty string, missing comments the
empty list. -/
def fillRequired (kvs0 : List (String × Json)) : List (String × Json) :=
  let kvs1 := if objHas kvs0 "overall_score" then kvs0 else objUpd kvs0 "overall_score" (Json.str "")
  let kvs2 := if objHas kvs1 "summary" then kvs1 else objUpd kvs1 "summary" (Json.str "")
  if objHas kvs2 "comments" then kvs2 else objUpd kvs2 "comments" (Json.arr [])

/-- The cleaned overall_score value: float conversion then clamping into
[1, 10], default 5 when conversion raises. -/
def scoreFieldOf (kvs : List (String × Json)) : Json :=
  match floatOf ((kvs.lookup "overall_score").getD Json.null) with
  | some q => Json.num (max 1 (min 10 q))
  | none => Json.num 5

/-- _validate_review_result: fill the required fields, clamp the score
into [1, 10] (default 5 when the raw value cannot be read as a float),
validate each comment, force the two list fields. A non-dict input
raises a TypeError before completing, as does a non-iterable comments
value; review_code catches both into an error dict, whose message text
stands in for the Python traceback. -/
def validate_review_result (j : Json) : Except String Json :=
  match j with
  | .obj kvs0 =>
    let kvs4 := objUpd (fillRequired kvs0) "overall_score" (scoreFieldOf (fillRequired kvs0))
    match commentsIter ((kvs4.lookup "comments").getD (Json.arr [])) with
    | some xs =>
      let kvs5 := objUpd kvs4 "comments" (Json.arr (xs.filterMap validateComment))
      Except.ok (Json.obj (fixListField (fixListField kvs5 "positive_aspects") "recommendations"))
    | none => Except.error "TypeError: comments is not iterable"
  | _ => Except.error "TypeError: review result is not a dict"

/-- The fixed synthetic result of _extract_json_from_response when no
strategy yields parseable JSON. -/
def fallback_response : Json :=
  Json.obj
    [("overall_score", Json.num 5),
     ("summary", Json.str "Review completed but response format was invalid"),
     ("comments", Json.arr
       [Json.obj
         [("line_number", Json.null),
          ("severity", Json.str "medium"),
          ("category", Json.str "quality"),
          ("title", Json.str "Review Format Issue"),
          ("description", Json.str "The AI review response could not be properly parsed. Manual review may be needed."),
          ("suggestion", Json.str ""),
          ("impact", Json.str "Unable to provide detailed feedback")]]),
     ("positive_aspects", Json.arr []),
     ("recommendations", Json.arr [Json.str "Manual code review recommended due to parsing issues"])]

/-- The regex whitespace class over the ASCII range (space, tab, newline,
carriage return, vertical tab, form feed). -/
def isReWs (c : Char) : Bool :=
  c = ' ' || c = '\t' || c = '\n' || c = '\r' || c = Char.ofNat 11 || c = Char.ofNat 12

/-- Skip regex whitespace. -/
def dropReWs : List Char → List Char
  | [] => []
  | c :: cs => if isReWs c then dropReWs cs else c :: cs

/-- Three backticks. -/
def ticks3 : List Char := [Char.ofNat 96, Char.ofNat 96, Char.ofNat 96]

/-- After the candidate closing brace: optional whitespace then the
closing fence. -/
def fencedCloseOk (cs : List Char) : Bool :=
  ticks3.isPrefixOf (dropReWs cs)

/-- The lazy body of the fenced-block group: the shortest prefix whose
next character is a closing brace followed by whitespace and the fence. -/
def lazyBody (acc : List Char) : List Char → Option (List Char)
  | [] => none
  | c :: rest =>
    if c = Char.ofNat 125 && fencedCloseOk rest then some acc.reverse
    else lazyBody (c :: acc) rest

/-- After the opening fence and the optional json tag: whitespace, an
opening brace, then the lazily matched body up to the closing brace. -/
def fencedBody (cs : List Char) : Option (List Char) :=
  match dropReWs cs with
  | c :: rest =>
    if c = Char.ofNat 123 then
      match lazyBody [] rest with
      | some body => some (Char.ofNat 123 :: (body ++ [Char.ofNat 125]))
      | none => none
    else none
  | [] => none

/-- A whole fenced-block match starting at this position: the opening
fence, the optional json tag (tried first, as the regex does), then the
group. -/
def fencedAt (cs : List Char) : Option (List Char) :=
  if ticks3.isPrefixOf cs then
    let cs0 := cs.drop 3
    if ['j', 's', 'o', 'n'].isPrefixOf cs0 then
      match fencedBody (cs0.drop 4) with
      | some g => some g
      | none => fencedBody cs0
    else fencedBody cs0
  else none

/-- The first (leftmost) fenced-block match of the response text: the
group of matches[0] of the extraction regex. -/
def fencedScan : List Char → Option (List Char)
  | [] => none
  | cs@(_ :: rest) =>
    match fencedAt cs with
    | some g => some g
    | none => fencedScan rest

/-- Index of the first occurrence of a character, counting from the head. -/
def firstIdxAux (c : Char) : List Char → Nat → Option Nat
  | [], _ => none
  | x :: xs, i => if x = c then some i else firstIdxAux c xs (i + 1)

/-- The outermost brace span: from the first opening brace to the last
closing brace, when the latter comes strictly later. -/
def braceSpan (s : String) : Option String :=
  let cs := s.toList
  match firstIdxAux (Char.ofNat 123) cs 0, lastIdxAux (Char.ofNat 125) cs 0 with
  | some i, some j =>
    if i < j then some (String.mk ((cs.drop i).take (j - i + 1))) else none
  | _, _ => none

/-- _extract_json_from_response: the fenced-block group, else the brace
span; a strategy that matches but does not parse falls through to the
fixed synthetic result, as does matching nothing at all. The parsed
payload of a successful strategy is returned without validation. -/
def extract_json_from_response (s : String) : Json :=
  match fencedScan s.toList with
  | some g =>
    match jsonLoads (String.mk g) with
    | some j => j
    | none => fallback_response
  | none =>
    match braceSpan s with
    | some sub =>
      match jsonLoads sub with
      | some j => j
      | none => fallback_response
    | none => fallback_response

/-- What the external model call produced: a raised exception (network
errors and the like) or a response text (empty models response.text
being falsy). -/
inductive ModelResponse where
  | raises (msg : String)
  | text (t : String)

/-- review_code after the prompt is built: an exception anywhere becomes
an error dict; an empty response becomes an error dict; a response that
parses as JSON is validated (a TypeError escaping validation is caught
by the outer handler into an error dict); a response that does not parse
goes to the extraction fallback chain. -/
def review_code (r : ModelResponse) : Json :=
  match r with
  | .raises msg => Json.obj [("error", Json.str msg)]
  | .text t =>
    if t = "" then Json.obj [("error", Json.str "Empty response from Gemini")]
    else
      match jsonLoads t with
      | some j =>
        match validate_review_result j with
        | .ok v => v
        | .error e => Json.obj [("error", Json.str e)]
      | none => extract_json_from_response t

/-- The validated result shape of the spec (section 3): a dict whose
overall_score is a number in [1, 10] and whose comments are finding
dicts with severity low, medium or high, a category from the documented
set, and the title and description fields present. -/
def validFinding (c : Json) : Bool :=
  match c with
  | .obj kvs =>
    (match kvs.lookup "severity" with
     | some (Json.str s) => s == "low" || s == "medium" || s == "high"
     | _ => false)
    && (match kvs.lookup "category" with
        | some (Json.str s) => validCategories.contains s
        | _ => false)
    && objHas kvs "title" && objHas kvs "description"
  | _ => false

/-- The validated review-result shape of the spec (section 3). -/
def validShape (j : Json) : Bool :=
  match j with
  | .obj kvs =>
    (match kvs.lookup "overall_score" with
     | some (Json.num q) => decide ((1 : Rat) ≤ q) && decide (q ≤ (10 : Rat))
     | _ => false)
    && (match kvs.lookup "comments" with
        | some (Json.arr cs) => cs.all validFinding
        | _ => false)
  | _ => false

/-! ## Per-file review loop (scripts/ai_reviewer.py, _review_file and run)

The external collaborators are parameters: fetch models
GitLabClient.get_file_content (none covers both an absent file and an
exception raised by the fetch, which the surrounding try of _review_file
turns into a skip), respond models what the Gemini call did for a given
path. review_code itself never raises (it catches internally), so the
only skip paths of _review_file are a falsy file content and a fetch
exception. -/

/-- One element of the reviews list the run loop accumulates. -/
structure ReviewEntry where
  file_path : String
  review_result : Option Json

/-- _review_file: skip on missing or empty content, otherwise wrap the
review_code result for the file. -/
def review_file (fi : FileInfo) (fetched : Option String) (rr : Json) : Option ReviewEntry :=
  match fetched with
  | none => none
  | some content =>
    if content = "" then none
    else some { file_path := filePathOf fi, review_result := some rr }

/-- The run loop over the files to review: each file is fetched and
reviewed, the produced entries are collected in input order, files whose
_review_file returned None are dropped. -/
def run_reviews (fetch : String → Option String) (respond : String → ModelResponse) :
    List FileInfo → List ReviewEntry
  | [] => []
  | fi :: rest =>
    match review_file fi (fetch (filePathOf fi)) (review_code (respond (filePathOf fi))) with
    | some e => e :: run_reviews fetch respond rest
    | none => run_reviews fetch respond rest

/-! ## Result aggregation (scripts/report_generator.py, _generate_summary)

The summary counts comments by severity and by category, sums the
scores and divides by the length of the reviews list. A present comments
value that is not a list, and a present overall_score that is not a
number, would raise inside the loop in Python (aborting report
generation); the embedding reads them as the empty list and score 0, and
the aggregation claims are stated under a well-formedness hypothesis
that excludes those rows. Metadata fields of the summary dict
(timestamp, configuration echo) are not modelled. -/

/-- dict.get(key, 0) + 1 bookkeeping of the severity and category
counters: bump the binding in place or open a new one. -/
def bump : List (String × Nat) → String → List (String × Nat)
  | [], k => [(k, 1)]
  | (k0, v0) :: rest, k =>
    if k0 = k then (k0, v0 + 1) :: rest else (k0, v0) :: bump rest k

/-- result.get("comments", []) as the report loops read it. -/
def commentsOf (r : Json) : List Json :=
  match jget r "comments" with
  | some (Json.arr xs) => xs
  | some _ => []
  | none => []

/-- comment.get("severity", "medium") as a counter key (non-string
values, which Python would hash as-is, are collapsed to one key). -/
def sevKeyOf (c : Json) : String :=
  match (jget c "severity").getD (Json.str "medium") with
  | Json.str s => s
  | _ => "<non-string-key>"

/-- comment.get("category", "quality") as a counter key. -/
def catKeyOf (c : Json) : String :=
  match (jget c "category").getD (Json.str "quality") with
  | Json.str s => s
  | _ => "<non-string-key>"

/-- result.get("overall_score", 5) as the score sum reads it: missing
scores default to 5; a present non-number (which Python would raise on
when summing) reads as 0. -/
def scoreOf (r : Json) : Rat :=
  match jget r "overall_score" with
  | some (Json.num q) => q
  | some _ => 0
  | none => 5

/-- The numeric and statistical fields of the summary dict. -/
structure Summary where
  total_files_reviewed : Nat
  total_comments : Nat
  average_score : Rat
  severity_distribution : List (String × Nat)
  category_distribution : List (String × Nat)

/-- Round half to even at the integer, as Python round does (modelled
exactly on rationals; Python rounds the nearest binary double, which
agrees on the values arising here). -/
def roundHalfEven (x : Rat) : Int :=
  let f := x.floor
  let r := x - (f : Rat)
  if r < 1/2 then f else if 1/2 < r then f + 1 else if f % 2 = 0 then f else f + 1

/-- round(x, 2) of Python, on exact rationals. -/
def round2 (x : Rat) : Rat :=
  ((roundHalfEven (x * 100) : Int) : Rat) / 100

/-- One iteration of the summary loop: rows with a falsy review_result
are skipped; otherwise every comment bumps the total and its two
counters, and the score joins the running sum. -/
def summaryStep (acc : Nat × List (String × Nat) × List (String × Nat) × Rat)
    (e : ReviewEntry) : Nat × List (String × Nat) × List (String × Nat) × Rat :=
  match e.review_result with
  | none => acc
  | some r =>
    if jtruthy r then
      let inner := (commentsOf r).foldl
        (fun (a : Nat × List (String × Nat) × List (String × Nat)) c =>
          (a.1 + 1, bump a.2.1 (sevKeyOf c), bump a.2.2 (catKeyOf c)))
        (acc.1, acc.2.1, acc.2.2.1)
      (inner.1, inner.2.1, inner.2.2, acc.2.2.2 + scoreOf r)
    else acc

/-- _generate_summary: fold the loop over the reviews, then divide the
score sum by the number of rows when that number is positive, and round
the average to two decimals. -/
def generate_summary (reviews : List ReviewEntry) : Summary :=
  let st := reviews.foldl summaryStep (0, [("high", 0), ("medium", 0), ("low", 0)], [], 0)
  let n := reviews.length
  let avg := if 0 < n then st.2.2.2 / (n : Rat) else st.2.2.2
  { total_files_reviewed := n
    total_comments := st.1
    average_score := round2 avg
    severity_distribution := st.2.1
    category_distribution := st.2.2.1 }

/-! ## CI test-result rendering (scripts/report_generator.py,
_generate_junit_report): the per-file test case nodes. -/

/-- c.get("severity") == s for a string s (no default: a missing or
non-string severity compares unequal). -/
def sevIs (c : Json) (s : String) : Bool :=
  match jget c "severity" with
  | some (Json.str s0) => s0 == s
  | _ => false

/-- Python str() of the title and description values as the f-string
renders them (container and numeric renderings are not modelled; the
claims use string or missing fields, whose defaults are strings). -/
def pyStr (j : Json) : String :=
  match j with
  | .str s => s
  | .null => "None"
  | .bool b => if b then "True" else "False"
  | _ => ""

/-- One line of a failure or error node body. -/
def junitIssueLine (c : Json) : String :=
  pyStr ((jget c "title").getD (Json.str "")) ++ ": "
    ++ pyStr ((jget c "description").getD (Json.str ""))

/-- The newline-joined body of a failure or error node. -/
def junitText (cs : List Json) : String :=
  String.intercalate "\n" (cs.map junitIssueLine)

/-- The failure and error children of one testcase: a failure node
(message attribute, body) when the file has a high-severity comment; an
error node when it has a medium-severity comment and no high one. -/
def junit_nodes (fp : String) (r : Json) :
    Option (String × String) × Option (String × String) :=
  let cs := commentsOf r
  let highs := cs.filter fun c => sevIs c "high"
  let mediums := cs.filter fun c => sevIs c "medium"
  let failureNode :=
    if highs.isEmpty then none
    else some ("High severity issues found in " ++ fp, junitText highs)
  let errorNode :=
    if !mediums.isEmpty && highs.isEmpty then
      some ("Medium severity issues found in " ++ fp, junitText mediums)
    else none
  (failureNode, errorNode)

/-! ## Derived readings used to state the aggregation claims. -/

/-- The sum of a counter map. -/
def sumVals (m : List (String × Nat)) : Nat :=
  (m.map Prod.snd).sum

/-- The findings a row contributes to the aggregate (none when the row
carries no truthy result). -/
def entryComments (e : ReviewEntry) : List Json :=
  match e.review_result with
  | some r => if jtruthy r then commentsOf r else []
  | none => []

/-- The score a row contributes to the aggregate sum. -/
def entryScore (e : ReviewEntry) : Rat :=
  match e.review_result with
  | some r => if jtruthy r then scoreOf r else 0
  | none => 0

/-- A well-formed aggregation row: a truthy dict result whose comments
value, when present, is a list of dicts, and whose overall_score is
present and numeric. On these rows the embedding of the summary loop
agrees with Python exactly. -/
def entryWF (e : ReviewEntry) : Bool :=
  match e.review_result with
  | some (Json.obj kvs) =>
    !kvs.isEmpty
    && (match kvs.lookup "comments" with
        | none => true
        | some (Json.arr xs) => xs.all isObjJ
        | some _ => false)
    && (match kvs.lookup "overall_score" with
        | some (Json.num _) => true
        | _ => false)
  | _ => false

/-! ## Theorems -/

theorem filter_files_sublist (cfg : ReviewConfig) (files : List FileInfo) :
    (filter_files cfg files).Sublist files := by
  induction files with
  | nil => exact List.Sublist.slnil
  | cons fi rest ih =>
    by_cases h : keep_file cfg fi = true
    · simpa [filter_files, h] using ih.cons₂ fi
    · simp only [filter_files, h]
      simp only [Bool.false_eq_true, if_false]
      exact ih.cons fi

theorem filter_files_mem_keep (cfg : ReviewConfig) (files : List FileInfo) (fi : FileInfo)
    (h : fi ∈ filter_files cfg files) : keep_file cfg fi = true := by
  induction files with
  | nil => cases h
  | cons g rest ih =>
    by_cases hg : keep_file cfg g = true
    · simp only [filter_files, hg, if_true] at h
      rcases List.mem_cons.mp h with h1 | h2
      · exact h1 ▸ hg
      · exact ih h2
    · simp only [filter_files, hg] at h
      simp only [Bool.false_eq_true, if_false] at h
      exact ih h

theorem filter_files_all_kept (cfg : ReviewConfig) (files : List FileInfo)
    (hall : ∀ fi ∈ files, keep_file cfg fi = true) :
    filter_files cfg files = files := by
  induction files with
  | nil => rfl
  | cons fi rest ih =>
    have h1 : keep_file cfg fi = true := hall fi (List.mem_cons_self fi rest)
    have h2 : filter_files cfg rest = rest := ih fun g hg => hall g (List.mem_cons_of_mem fi hg)
    simp [filter_files, h1, h2]

/-- Claim C9: the file filter is idempotent (applying it to its own
output returns that output unchanged) and order-preserving (its output
is a sublist of its input); as a Lean function it is pure by
construction. -/
theorem C9_filter_idempotent (cfg : ReviewConfig) (files : List FileInfo) :
    filter_files cfg (filter_files cfg files) = filter_files cfg files
    ∧ (filter_files cfg files).Sublist files :=
  ⟨filter_files_all_kept cfg (filter_files cfg files)
      (fun fi hfi => filter_files_mem_keep cfg files fi hfi),
   filter_files_sublist cfg files⟩

theorem starLoop_iff (k : List Char → Bool) (s : List Char) :
    starLoop k s = true ↔ ∃ u, u <:+ s ∧ k u = true := by
  induction s with
  | nil =>
    simp only [starLoop]
    constructor
    · intro h; exact ⟨[], List.nil_suffix, h⟩
    · rintro ⟨u, hu, hk⟩
      have : u = [] := List.eq_nil_of_suffix_nil hu
      exact this ▸ hk
  | cons c sr ih =>
    simp only [starLoop, Bool.or_eq_true, ih]
    constructor
    · rintro (h | ⟨u, hu, hk⟩)
      · exact ⟨c :: sr, List.suffix_refl _, h⟩
      · exact ⟨u, hu.trans (List.suffix_cons c sr), hk⟩
    · rintro ⟨u, hu, hk⟩
      rcases List.suffix_cons_iff.mp hu with h | h
      · exact Or.inl (h ▸ hk)
      · exact Or.inr ⟨u, h, hk⟩

theorem globMatch_wildFree (t : List Char) (hw : wildFree t = true) (s : List Char) :
    globMatch t s = true ↔ s = t := by
  induction t generalizing s with
  | nil =>
    simp only [globMatch, List.isEmpty_iff]
  | cons c pr ih =>
    have hc : (c == '*') = false ∧ (c == '?') = false ∧ wildFree pr = true := by
      simp only [wildFree, List.all_cons, Bool.and_eq_true, Bool.not_eq_true'] at hw ⊢
      exact ⟨hw.1.1.1, hw.1.1.2, hw.2⟩
    have hcs : c ≠ '*' := by
      intro h; rw [h] at hc; simp at hc
    have hcq : c ≠ '?' := by
      intro h; rw [h] at hc; simp [hcs] at hc
    cases s with
    | nil =>
      simp [globMatch, hcs]
    | cons d sr =>
      simp only [globMatch, if_neg hcs, if_neg hcq, Bool.and_eq_true, beq_iff_eq]
      rw [ih hc.2.2 sr]
      constructor
      · rintro ⟨h1, h2⟩; rw [h1, h2]
      · intro h
        injection h with h1 h2
        exact ⟨h1.symm, h2⟩

theorem globMatch_star_suffix (t : List Char) (hw : wildFree t = true) (s : List Char) :
    globMatch ('*' :: t) s = true ↔ t <:+ s := by
  have h1 : globMatch ('*' :: t) s = starLoop (globMatch t) s := by
    simp [globMatch]
  rw [h1, starLoop_iff]
  constructor
  · rintro ⟨u, hu, hk⟩
    have : u = t := (globMatch_wildFree t hw u).mp hk
    exact this ▸ hu
  · intro h
    exact ⟨t, h, (globMatch_wildFree t hw t).mpr rfl⟩

theorem toList_injective (a b : String) (h : a.toList = b.toList) : a = b := by
  cases a; cases b
  simp only [String.toList] at h
  exact congrArg String.mk h

/-- Claim C7 (amended): with a wildcard-free tail t, the pattern star-t
matches a path exactly when t is a suffix of it, with no constraint on
what the star spans (the separator included); a wildcard-free pattern
matches exactly the identical path, so matching is case-sensitive. -/
theorem C7_glob_semantics_amended (path pat lit : String) (t : List Char)
    (h1 : pat.toList = '*' :: t) (h2 : trimStr pat = pat) (h3 : wildFree t = true)
    (h4 : trimStr lit = lit) (h5 : wildFree lit.toList = true) (h6 : lit ≠ "") :
    (matches_patterns path [pat] = true ↔ t <:+ path.toList)
    ∧ (matches_patterns path [lit] = true ↔ path = lit) := by
  constructor
  · have hne : (pat == "") = false := by
      apply beq_eq_false_iff_ne.mpr
      intro h
      rw [h] at h1
      exact List.noConfusion h1
    simp only [matches_patterns, List.any_cons, List.any_nil, Bool.or_false, h2, hne,
      Bool.not_false, Bool.true_and, fnmatchB, h1]
    exact globMatch_star_suffix t h3 path.toList
  · have hne : (lit == "") = false := beq_eq_false_iff_ne.mpr h6
    simp only [matches_patterns, List.any_cons, List.any_nil, Bool.or_false, h4, hne,
      Bool.not_false, Bool.true_and, fnmatchB]
    rw [globMatch_wildFree lit.toList h5 path.toList]
    constructor
    · exact fun h => toList_injective path lit h
    · intro h; rw [h]

/-- Claim C7 witness: through the amended theorem, the pattern star-dot-py
accepts the path src/a.py even though the star has to span the separator. -/
theorem C7_glob_semantics_witness : matches_patterns "src/a.py" ["*.py"] = true :=
  (C7_glob_semantics_amended "src/a.py" "*.py" "a.py" ['.', 'p', 'y']
    (by decide) (by with_unfolding_all decide) (by decide)
    (by with_unfolding_all decide) (by decide) (by decide)).1.mpr (by decide)

/-- Claim C7 counterexample: the filter accepts src/a.py under the
pattern star-dot-py, while the claimed semantics (star never matching
across the separator) rejects it. -/
theorem C7_glob_semantics_counterexample :
    matches_patterns "src/a.py" ["*.py"] = true
    ∧ specGlobMatch "*.py".toList "src/a.py".toList = false := by
  constructor
  · with_unfolding_all decide
  · with_unfolding_all decide

theorem submit_present_rejects (tbl : List (String × StatusRecord)) (wk : Webhook)
    (pid iid : Nat)
    (hkind : wk.object_kind = "merge_request")
    (hpid : wk.project_id = some pid) (hiid : wk.mr_iid = some iid)
    (hpid0 : pid ≠ 0) (hiid0 : iid ≠ 0)
    (hact : wk.action = "open" ∨ wk.action = "update" ∨ wk.action = "reopen")
    (hmem : (tbl.lookup (review_key pid iid)).isSome = true) :
    submit tbl wk = SubmitOutcome.alreadyInProgress (review_key pid iid) := by
  have hactB : (wk.action == "open" || wk.action == "update" || wk.action == "reopen") = true := by
    rcases hact with h | h | h <;> simp [h]
  simp [submit, hkind, hpid, hiid, hpid0, hiid0, hactB, hmem]

theorem submit_absent_starts (tbl : List (String × StatusRecord)) (wk : Webhook)
    (pid iid : Nat)
    (hkind : wk.object_kind = "merge_request")
    (hpid : wk.project_id = some pid) (hiid : wk.mr_iid = some iid)
    (hpid0 : pid ≠ 0) (hiid0 : iid ≠ 0)
    (hact : wk.action = "open" ∨ wk.action = "update" ∨ wk.action = "reopen")
    (habs : tbl.lookup (review_key pid iid) = none) :
    submit tbl wk = SubmitOutcome.started (review_key pid iid) := by
  have hactB : (wk.action == "open" || wk.action == "update" || wk.action == "reopen") = true := by
    rcases hact with h | h | h <;> simp [h]
  simp [submit, hkind, hpid, hiid, hpid0, hiid0, hactB, habs]

theorem lookupConsSelf {β : Type} (k : String) (v : β) (l : List (String × β)) :
    List.lookup k ((k, v) :: l) = some v := by
  simp [List.lookup]

theorem lookupConsNe {β : Type} (k k0 : String) (v : β) (l : List (String × β)) (h : k ≠ k0) :
    List.lookup k ((k0, v) :: l) = List.lookup k l := by
  simp [List.lookup, beq_eq_false_iff_ne.mpr h]

theorem lookup_map_if (g : StatusRecord → StatusRecord) (tbl : List (String × StatusRecord))
    (key : String) :
    (tbl.map fun kr => if kr.1 = key then (kr.1, g kr.2) else kr).lookup key
      = (tbl.lookup key).map g := by
  induction tbl with
  | nil => rfl
  | cons kr rest ih =>
    obtain ⟨k0, r0⟩ := kr
    simp only [List.map_cons]
    by_cases hk : k0 = key
    · subst hk
      have h1 : (if (k0, r0).1 = k0 then ((k0, r0).1, g (k0, r0).2) else (k0, r0))
          = (k0, g r0) := by simp
      rw [h1, lookupConsSelf, lookupConsSelf]
      rfl
    · have h1 : (if (k0, r0).1 = key then ((k0, r0).1, g (k0, r0).2) else (k0, r0))
          = (k0, r0) := by simp [hk]
      rw [h1, lookupConsNe key k0 _ _ (Ne.symm hk), lookupConsNe key k0 _ _ (Ne.symm hk), ih]

theorem lookup_complete_run (tbl : List (String × StatusRecord)) (key t : String)
    (rec2 : StatusRecord) (h : (complete_run tbl key t).lookup key = some rec2) :
    rec2.status = "completed" := by
  have h2 : (complete_run tbl key t).lookup key
      = (tbl.lookup key).map fun r => { r with status := "completed", completed_at := some t } :=
    lookup_map_if (fun r => { r with status := "completed", completed_at := some t }) tbl key
  rw [h2] at h
  cases hl : tbl.lookup key with
  | none => rw [hl] at h; cases h
  | some r0 => rw [hl] at h; cases h; rfl

theorem lookup_fail_run (tbl : List (String × StatusRecord)) (key err t : String)
    (rec2 : StatusRecord) (h : (fail_run tbl key err t).lookup key = some rec2) :
    rec2.status = "failed" := by
  have h2 : (fail_run tbl key err t).lookup key
      = (tbl.lookup key).map fun r =>
          { r with status := "failed", error := some err, completed_at := some t } :=
    lookup_map_if (fun r => { r with status := "failed", error := some err, completed_at := some t })
      tbl key
  rw [h2] at h
  cases hl : tbl.lookup key with
  | none => rw [hl] at h; cases h
  | some r0 => rw [hl] at h; cases h; rfl

theorem lookup_evict_review (tbl : List (String × StatusRecord)) (key : String) :
    (evict_review tbl key).lookup key = none := by
  induction tbl with
  | nil => rfl
  | cons kr rest ih =>
    by_cases hk : kr.1 = key
    · simpa [evict_review, hk] using ih
    · have hne : (key == kr.1) = false := beq_eq_false_iff_ne.mpr (Ne.symm hk)
      simpa [evict_review, hk, List.lookup, hne] using ih

/-- Claim C6: a valid merge-request trigger for a unit whose status
record is present in state running is rejected as already in progress
and starts no run. -/
theorem C6_dedup_running (tbl : List (String × StatusRecord)) (wk : Webhook)
    (pid iid : Nat) (rec : StatusRecord)
    (hkind : wk.object_kind = "merge_request")
    (hpid : wk.project_id = some pid) (hiid : wk.mr_iid = some iid)
    (hpid0 : pid ≠ 0) (hiid0 : iid ≠ 0)
    (hact : wk.action = "open" ∨ wk.action = "update" ∨ wk.action = "reopen")
    (hrec : tbl.lookup (review_key pid iid) = some rec)
    (hrun : rec.status = "running") :
    submit tbl wk = SubmitOutcome.alreadyInProgress (review_key pid iid)
    ∧ ∀ k, submit tbl wk ≠ SubmitOutcome.started k := by
  have h := submit_present_rejects tbl wk pid iid hkind hpid hiid hpid0 hiid0 hact
    (by rw [hrec]; rfl)
  refine ⟨h, fun k hk => ?_⟩
  rw [h] at hk
  cases hk

/-- Claim C6 witness: a concrete running record blocks a second valid
trigger for the same unit. -/
theorem C6_dedup_running_witness :
    submit [("1:2", StatusRecord.mk "running" "t0" 1 2 none none)]
        (Webhook.mk "merge_request" "update" (some 1) (some 2))
      = SubmitOutcome.alreadyInProgress (review_key 1 2) :=
  (C6_dedup_running [("1:2", StatusRecord.mk "running" "t0" 1 2 none none)]
    (Webhook.mk "merge_request" "update" (some 1) (some 2)) 1 2
    (StatusRecord.mk "running" "t0" 1 2 none none)
    rfl rfl rfl (by decide) (by decide) (Or.inr (Or.inl rfl))
    (by with_unfolding_all rfl) rfl).1

/-- Claim C4 (amended): while a status record for the unit exists — in
any state, the terminal ones included — a new valid trigger for the same
unit is rejected as already in progress, not accepted as a fresh
submission; a fresh submission is accepted exactly when no record for
the unit exists (in particular after eviction, which removes the
record); and no lifecycle transition puts a record back into running:
completion and failure only produce terminal records and eviction only
removes. -/
theorem C4_resubmit_terminal_amended (tbl : List (String × StatusRecord)) (wk : Webhook)
    (pid iid : Nat)
    (hkind : wk.object_kind = "merge_request")
    (hpid : wk.project_id = some pid) (hiid : wk.mr_iid = some iid)
    (hpid0 : pid ≠ 0) (hiid0 : iid ≠ 0)
    (hact : wk.action = "open" ∨ wk.action = "update" ∨ wk.action = "reopen") :
    (∀ rec, tbl.lookup (review_key pid iid) = some rec →
        submit tbl wk = SubmitOutcome.alreadyInProgress (review_key pid iid))
    ∧ (tbl.lookup (review_key pid iid) = none →
        submit tbl wk = SubmitOutcome.started (review_key pid iid))
    ∧ (submit tbl wk = SubmitOutcome.started (review_key pid iid) →
        tbl.lookup (review_key pid iid) = none)
    ∧ (∀ key t rec2, (complete_run tbl key t).lookup key = some rec2 →
        rec2.status = "completed")
    ∧ (∀ key err t rec2, (fail_run tbl key err t).lookup key = some rec2 →
        rec2.status = "failed")
    ∧ (∀ key, (evict_review tbl key).lookup key = none) := by
  refine ⟨?_, ?_, ?_, ?_, ?_, ?_⟩
  · intro rec hrec
    exact submit_present_rejects tbl wk pid iid hkind hpid hiid hpid0 hiid0 hact
      (by rw [hrec]; rfl)
  · intro habs
    exact submit_absent_starts tbl wk pid iid hkind hpid hiid hpid0 hiid0 hact habs
  · intro hst
    cases habs : tbl.lookup (review_key pid iid) with
    | none => rfl
    | some rec =>
      have h := submit_present_rejects tbl wk pid iid hkind hpid hiid hpid0 hiid0 hact
        (by rw [habs]; rfl)
      rw [h] at hst
      cases hst
  · intro key t rec2 h
    exact lookup_complete_run tbl key t rec2 h
  · intro key err t rec2 h
    exact lookup_fail_run tbl key err t rec2 h
  · intro key
    exact lookup_evict_review tbl key

/-- Claim C4 witness: through the amended theorem, a completed (terminal,
not yet evicted) record makes the controller reject the resubmission. -/
theorem C4_resubmit_terminal_witness :
    submit [("1:2", StatusRecord.mk "completed" "t0" 1 2 (some "t1") none)]
        (Webhook.mk "merge_request" "update" (some 1) (some 2))
      = SubmitOutcome.alreadyInProgress (review_key 1 2) :=
  (C4_resubmit_terminal_amended
    [("1:2", StatusRecord.mk "completed" "t0" 1 2 (some "t1") none)]
    (Webhook.mk "merge_request" "update" (some 1) (some 2)) 1 2
    rfl rfl rfl (by decide) (by decide) (Or.inr (Or.inl rfl))).1
    (StatusRecord.mk "completed" "t0" 1 2 (some "t1") none) (by with_unfolding_all rfl)

/-- Claim C4 counterexample: with a terminal (completed) record still in
the table, a new valid trigger for the same unit is answered already in
progress, not accepted as a fresh submission with a new running record. -/
theorem C4_resubmit_terminal_counterexample :
    submit [("1:2", StatusRecord.mk "completed" "t0" 1 2 (some "t1") none)]
        (Webhook.mk "merge_request" "update" (some 1) (some 2))
      = SubmitOutcome.alreadyInProgress "1:2"
    ∧ SubmitOutcome.alreadyInProgress "1:2" ≠ SubmitOutcome.started "1:2" := by
  constructor
  · with_unfolding_all decide
  · decide

theorem lookup_levels_threshold (t : String) :
    (severity_levels.lookup t).getD 2 = sevOrd (effThreshold t) := by
  by_cases h1 : t = "low"
  · subst h1; with_unfolding_all decide
  · by_cases h2 : t = "medium"
    · subst h2; with_unfolding_all decide
    · by_cases h3 : t = "high"
      · subst h3; with_unfolding_all decide
      · have b1 : (t == "low") = false := beq_eq_false_iff_ne.mpr h1
        have b2 : (t == "medium") = false := beq_eq_false_iff_ne.mpr h2
        have b3 : (t == "high") = false := beq_eq_false_iff_ne.mpr h3
        simp [severity_levels, List.lookup, b1, b2, b3, sevOrd, effThreshold, h1, h2, h3]

/-- Claim C8: for a finding with a valid severity, the gate posts
exactly when the severity rank reaches the rank of the effective
threshold under low < medium < high, an unknown threshold behaves as
medium, and at threshold medium the gate posts medium and high and
suppresses low. -/
theorem C8_comment_gate (c : Json) (s t : String)
    (hs : jget c "severity" = some (Json.str s))
    (hv : s = "low" ∨ s = "medium" ∨ s = "high") :
    (should_post c t = true ↔ sevOrd (effThreshold t) ≤ sevOrd s)
    ∧ (t ≠ "low" → t ≠ "medium" → t ≠ "high" → should_post c t = should_post c "medium")
    ∧ (should_post c "medium" = true ↔ (s = "medium" ∨ s = "high")) := by
  have hpost : ∀ u : String, should_post c u
      = decide (sevOrd (effThreshold u) ≤ (severity_levels.lookup s).getD 1) := by
    intro u
    simp only [should_post, hs, Option.getD_some, lookup_levels_threshold]
  have hclev : (severity_levels.lookup s).getD 1 = sevOrd s := by
    rcases hv with h | h | h <;> subst h <;> with_unfolding_all decide
  refine ⟨?_, ?_, ?_⟩
  · rw [hpost t, hclev]
    exact decide_eq_true_iff
  · intro h1 h2 h3
    rw [hpost t, hpost "medium"]
    have : effThreshold t = effThreshold "medium" := by
      simp [effThreshold, h1, h2, h3]
    rw [this]
  · rw [hpost "medium", hclev]
    have hm : effThreshold "medium" = "medium" := by with_unfolding_all decide
    rw [hm]
    rcases hv with h | h | h <;> subst h <;> simp [sevOrd]

/-- Claim C8 witness: a high finding against an unknown threshold string,
through the theorem. -/
theorem C8_comment_gate_witness :
    should_post (Json.obj [("severity", Json.str "high")]) "weird" = true
      ↔ sevOrd (effThreshold "weird") ≤ sevOrd "high" :=
  (C8_comment_gate (Json.obj [("severity", Json.str "high")]) "high" "weird"
    (by with_unfolding_all rfl) (Or.inr (Or.inr rfl))).1

/-- Claim C10: a finding whose severity is missing, not a string, or not
one of low, medium, high is treated by the gate as severity low (it
behaves like an explicit low finding for every threshold) and is
suppressed at threshold medium, while ingestion validation coerces the
same finding to severity medium. -/
theorem C10_gate_unknown_severity (kvs : List (String × Json)) (t : String)
    (h : gateSevMissingOrUnknown (Json.obj kvs) = true) :
    should_post (Json.obj kvs) "medium" = false
    ∧ should_post (Json.obj kvs) t = should_post (Json.obj [("severity", Json.str "low")]) t
    ∧ ∃ v, validateComment (Json.obj kvs) = some v
        ∧ jget v "severity" = some (Json.str "medium") := by
  have hclev : (match (jget (Json.obj kvs) "severity").getD (Json.str "low") with
      | Json.str s => (severity_levels.lookup s).getD 1
      | _ => 1) = 1 := by
    simp only [gateSevMissingOrUnknown] at h
    cases hsev : jget (Json.obj kvs) "severity" with
    | none => simp [hsev, severity_levels, List.lookup]
    | some j =>
      rw [hsev] at h
      cases j with
      | str s =>
        simp only [Bool.not_eq_true', Bool.or_eq_false_iff] at h
        have b1 : (s == "low") = false := h.1.1
        have b2 : (s == "medium") = false := h.1.2
        have b3 : (s == "high") = false := h.2
        have n1 : s ≠ "low" := by intro he; rw [he] at b1; simp at b1
        have n2 : s ≠ "medium" := by intro he; rw [he] at b2; simp at b2
        have n3 : s ≠ "high" := by intro he; rw [he] at b3; simp at b3
        simp [severity_levels, List.lookup, beq_eq_false_iff_ne.mpr n1,
          beq_eq_false_iff_ne.mpr n2, beq_eq_false_iff_ne.mpr n3]
      | null => simp
      | bool b => simp
      | num q => simp
      | arr xs => simp
      | obj kvs2 => simp
  have hlow : (match (jget (Json.obj [("severity", Json.str "low")]) "severity").getD
        (Json.str "low") with
      | Json.str s => (severity_levels.lookup s).getD 1
      | _ => 1) = 1 := by with_unfolding_all decide
  refine ⟨?_, ?_, ?_⟩
  · simp only [should_post, hclev]
    with_unfolding_all decide
  · simp only [should_post, hclev, hlow]
  · simp only [gateSevMissingOrUnknown] at h
    cases hsev : (kvs.lookup "severity") with
    | none =>
      refine ⟨_, rfl, ?_⟩
      simp only [validateComment, hsev, Option.getD_none, jget]
      rw [lookupConsNe _ _ _ _ (by decide), lookupConsSelf]
      have : coerceSeverity (Json.str "medium") = Json.str "medium" := by
        with_unfolding_all rfl
      rw [this]
    | some j =>
      have hsev2 : jget (Json.obj kvs) "severity" = some j := hsev
      rw [hsev2] at h
      refine ⟨_, rfl, ?_⟩
      simp only [validateComment, hsev, Option.getD_some, jget]
      cases j with
      | str s =>
        simp only [Bool.not_eq_true', Bool.or_eq_false_iff] at h
        rw [lookupConsNe _ _ _ _ (by decide), lookupConsSelf]
        have : coerceSeverity (Json.str s) = Json.str "medium" := by
          simp [coerceSeverity, h.1.1, h.1.2, h.2]
        rw [this]
      | null =>
        rw [lookupConsNe _ _ _ _ (by decide), lookupConsSelf]
        with_unfolding_all rfl
      | bool b =>
        rw [lookupConsNe _ _ _ _ (by decide), lookupConsSelf]
        with_unfolding_all rfl
      | num q =>
        rw [lookupConsNe _ _ _ _ (by decide), lookupConsSelf]
        with_unfolding_all rfl
      | arr xs =>
        rw [lookupConsNe _ _ _ _ (by decide), lookupConsSelf]
        with_unfolding_all rfl
      | obj kvs2 =>
        rw [lookupConsNe _ _ _ _ (by decide), lookupConsSelf]
        with_unfolding_all rfl

/-- Claim C10 witness: a finding with the unknown severity critical is
suppressed at threshold medium, through the theorem. -/
theorem C10_gate_unknown_severity_witness :
    should_post (Json.obj [("severity", Json.str "critical")]) "medium" = false :=
  (C10_gate_unknown_severity [("severity", Json.str "critical")] "high"
    (by with_unfolding_all decide)).1

theorem filter_isEmpty_iff_none (cs : List Json) (p : Json → Bool) :
    (cs.filter p).isEmpty = true ↔ ∀ c ∈ cs, ¬p c = true := by
  rw [List.isEmpty_iff, List.filter_eq_nil_iff]

theorem sevIs_low_excludes (c : Json) (h : sevIs c "low" = true) :
    sevIs c "high" = false ∧ sevIs c "medium" = false := by
  simp only [sevIs] at *
  cases hs : jget c "severity" with
  | none => rw [hs] at h; cases h
  | some j =>
    rw [hs] at h
    cases j with
    | str s =>
      have : s = "low" := by simpa using h
      subst this
      constructor <;> decide
    | null => cases h
    | bool b => cases h
    | num q => cases h
    | arr xs => cases h
    | obj kvs => cases h

/-- Claim C2: in the CI test-result document, a reviewed file gets a
failure node exactly when it has a high-severity finding (and then no
error node, with the node body joining the high findings), an error node
exactly when it has a medium-severity finding and no high one, and a
file with only low-severity findings (or none) gets neither node. The
hypothesis that the findings are dicts scopes the statement to the
shapes the Python loop reads without raising. -/
theorem C2_junit_mapping (fp : String) (r : Json)
    (hobj : ∀ c ∈ commentsOf r, isObjJ c = true) :
    ((junit_nodes fp r).1.isSome = true ↔ ∃ c ∈ commentsOf r, sevIs c "high" = true)
    ∧ ((junit_nodes fp r).2.isSome = true ↔
        ((∃ c ∈ commentsOf r, sevIs c "medium" = true)
          ∧ ¬∃ c ∈ commentsOf r, sevIs c "high" = true))
    ∧ (∀ node, (junit_nodes fp r).1 = some node →
        node.1 = "High severity issues found in " ++ fp
        ∧ node.2 = junitText ((commentsOf r).filter fun c => sevIs c "high")
        ∧ (junit_nodes fp r).2 = none)
    ∧ ((∀ c ∈ commentsOf r, sevIs c "low" = true) → junit_nodes fp r = (none, none)) := by
  have hhigh := filter_isEmpty_iff_none (commentsOf r) (fun c => sevIs c "high")
  have hmed := filter_isEmpty_iff_none (commentsOf r) (fun c => sevIs c "medium")
  refine ⟨?_, ?_, ?_, ?_⟩
  · cases he : ((commentsOf r).filter fun c => sevIs c "high").isEmpty with
    | true =>
      simp only [junit_nodes, he, if_true, Option.isSome_none]
      rw [he] at hhigh
      simp only [true_iff] at hhigh
      constructor
      · intro hfalse; cases hfalse
      · rintro ⟨c, hc, hs⟩
        exact absurd hs (hhigh c hc)
    | false =>
      simp only [junit_nodes, he, Bool.false_eq_true, if_false, Option.isSome_some]
      constructor
      · intro _
        by_contra hno
        push_neg at hno
        have : ((commentsOf r).filter fun c => sevIs c "high").isEmpty = true :=
          hhigh.mpr fun c hc => by simpa using hno c hc
        rw [this] at he
        cases he
      · intro _; trivial
  · cases he : ((commentsOf r).filter fun c => sevIs c "high").isEmpty with
    | true =>
      rw [he] at hhigh
      simp only [true_iff] at hhigh
      cases hm : ((commentsOf r).filter fun c => sevIs c "medium").isEmpty with
      | true =>
        rw [hm] at hmed
        simp only [true_iff] at hmed
        simp only [junit_nodes, he, hm, Bool.not_true, Bool.false_and, if_false,
          Bool.false_eq_true, Option.isSome_none]
        constructor
        · intro hfalse; cases hfalse
        · rintro ⟨⟨c, hc, hs⟩, _⟩
          exact absurd hs (hmed c hc)
      | false =>
        simp only [junit_nodes, he, hm, Bool.not_false, Bool.true_and, if_true,
          Option.isSome_some, true_iff]
        constructor
        · by_contra hno
          push_neg at hno
          have : ((commentsOf r).filter fun c => sevIs c "medium").isEmpty = true :=
            hmed.mpr fun c hc => by simpa using hno c hc
          rw [this] at hm
          cases hm
        · rintro ⟨c, hc, hs⟩
          exact absurd hs (hhigh c hc)
    | false =>
      simp only [junit_nodes, he, Bool.and_false, Bool.false_eq_true, if_false,
        Option.isSome_none]
      constructor
      · intro hfalse; cases hfalse
      · rintro ⟨_, hno⟩
        exfalso
        apply hno
        by_contra hnone
        push_neg at hnone
        have : ((commentsOf r).filter fun c => sevIs c "high").isEmpty = true :=
          hhigh.mpr fun c hc => by simpa using hnone c hc
        rw [this] at he
        cases he
  · intro node hnode
    cases he : ((commentsOf r).filter fun c => sevIs c "high").isEmpty with
    | true =>
      simp only [junit_nodes, he, if_true] at hnode
      cases hnode
    | false =>
      simp only [junit_nodes, he, Bool.false_eq_true, if_false] at hnode
      cases hnode
      exact ⟨rfl, rfl, by simp [junit_nodes, he]⟩
  · intro hlow
    have h1 : ((commentsOf r).filter fun c => sevIs c "high").isEmpty = true :=
      hhigh.mpr fun c hc => by simp [(sevIs_low_excludes c (hlow c hc)).1]
    have h2 : ((commentsOf r).filter fun c => sevIs c "medium").isEmpty = true :=
      hmed.mpr fun c hc => by simp [(sevIs_low_excludes c (hlow c hc)).2]
    simp [junit_nodes, h1, h2]

/-- Claim C2 witness: a file with one high and one medium finding has a
failure node exactly when a high finding exists, through the theorem at
a concrete input. -/
theorem C2_junit_mapping_witness :
    (junit_nodes "f.py"
        (Json.obj [("comments", Json.arr
          [Json.obj [("severity", Json.str "high"), ("title", Json.str "T"),
            ("description", Json.str "D")],
           Json.obj [("severity", Json.str "medium")]])])).1.isSome = true
      ↔ ∃ c ∈ commentsOf (Json.obj [("comments", Json.arr
          [Json.obj [("severity", Json.str "high"), ("title", Json.str "T"),
            ("description", Json.str "D")],
           Json.obj [("severity", Json.str "medium")]])]), sevIs c "high" = true :=
  (C2_junit_mapping "f.py"
    (Json.obj [("comments", Json.arr
      [Json.obj [("severity", Json.str "high"), ("title", Json.str "T"),
        ("description", Json.str "D")],
       Json.obj [("severity", Json.str "medium")]])])
    (by with_unfolding_all decide)).1

theorem sumVals_nil : sumVals [] = 0 := rfl

theorem sumVals_cons (k : String) (v : Nat) (m : List (String × Nat)) :
    sumVals ((k, v) :: m) = v + sumVals m := by
  simp [sumVals]

theorem bump_sumVals (m : List (String × Nat)) (k : String) :
    sumVals (bump m k) = sumVals m + 1 := by
  induction m with
  | nil => rfl
  | cons kv rest ih =>
    obtain ⟨k0, v0⟩ := kv
    by_cases hk : k0 = k
    · subst hk
      have hb : bump ((k0, v0) :: rest) k0 = (k0, v0 + 1) :: rest := by simp [bump]
      rw [hb, sumVals_cons, sumVals_cons]
      omega
    · have hb : bump ((k0, v0) :: rest) k = (k0, v0) :: bump rest k := by simp [bump, hk]
      rw [hb, sumVals_cons, sumVals_cons, ih]
      omega

theorem comments_fold_spec (cs : List Json) (tc : Nat) (sev cat : List (String × Nat)) :
    (cs.foldl (fun (a : Nat × List (String × Nat) × List (String × Nat)) c =>
        (a.1 + 1, bump a.2.1 (sevKeyOf c), bump a.2.2 (catKeyOf c))) (tc, sev, cat)).1
      = tc + cs.length
    ∧ sumVals (cs.foldl (fun (a : Nat × List (String × Nat) × List (String × Nat)) c =>
        (a.1 + 1, bump a.2.1 (sevKeyOf c), bump a.2.2 (catKeyOf c))) (tc, sev, cat)).2.1
      = sumVals sev + cs.length := by
  induction cs generalizing tc sev cat with
  | nil => exact ⟨rfl, rfl⟩
  | cons c rest ih =>
    simp only [List.foldl_cons]
    obtain ⟨h1, h2⟩ := ih (tc + 1) (bump sev (sevKeyOf c)) (bump cat (catKeyOf c))
    refine ⟨?_, ?_⟩
    · rw [h1]; simp [List.length_cons]; omega
    · rw [h2, bump_sumVals]; simp [List.length_cons]; omega

theorem summary_fold_spec (rs : List ReviewEntry) (tc : Nat) (sev cat : List (String × Nat))
    (ss : Rat) :
    (rs.foldl summaryStep (tc, sev, cat, ss)).1
      = tc + ((rs.map fun e => (entryComments e).length).sum)
    ∧ sumVals (rs.foldl summaryStep (tc, sev, cat, ss)).2.1
      = sumVals sev + ((rs.map fun e => (entryComments e).length).sum)
    ∧ (rs.foldl summaryStep (tc, sev, cat, ss)).2.2.2 = ss + ((rs.map entryScore).sum) := by
  induction rs generalizing tc sev cat ss with
  | nil => exact ⟨by simp, by simp, by simp⟩
  | cons e rest ih =>
    simp only [List.foldl_cons, List.map_cons, List.sum_cons]
    cases hrr : e.review_result with
    | none =>
      have hstep : summaryStep (tc, sev, cat, ss) e = (tc, sev, cat, ss) := by
        simp [summaryStep, hrr]
      have hec : entryComments e = [] := by simp [entryComments, hrr]
      have hes : entryScore e = 0 := by simp [entryScore, hrr]
      rw [hstep, hec, hes]
      obtain ⟨h1, h2, h3⟩ := ih tc sev cat ss
      exact ⟨by rw [h1]; simp, by rw [h2]; simp, by rw [h3]; simp⟩
    | some r =>
      cases ht : jtruthy r with
      | false =>
        have hstep : summaryStep (tc, sev, cat, ss) e = (tc, sev, cat, ss) := by
          simp [summaryStep, hrr, ht]
        have hec : entryComments e = [] := by simp [entryComments, hrr, ht]
        have hes : entryScore e = 0 := by simp [entryScore, hrr, ht]
        rw [hstep, hec, hes]
        obtain ⟨h1, h2, h3⟩ := ih tc sev cat ss
        exact ⟨by rw [h1]; simp, by rw [h2]; simp, by rw [h3]; simp⟩
      | true =>
        have hec : entryComments e = commentsOf r := by simp [entryComments, hrr, ht]
        have hes : entryScore e = scoreOf r := by simp [entryScore, hrr, ht]
        obtain ⟨hc1, hc2⟩ := comments_fold_spec (commentsOf r) tc sev cat
        have hstep : summaryStep (tc, sev, cat, ss) e
            = (((commentsOf r).foldl
                (fun (a : Nat × List (String × Nat) × List (String × Nat)) c =>
                  (a.1 + 1, bump a.2.1 (sevKeyOf c), bump a.2.2 (catKeyOf c))) (tc, sev, cat)).1,
               ((commentsOf r).foldl
                (fun (a : Nat × List (String × Nat) × List (String × Nat)) c =>
                  (a.1 + 1, bump a.2.1 (sevKeyOf c), bump a.2.2 (catKeyOf c))) (tc, sev, cat)).2.1,
               ((commentsOf r).foldl
                (fun (a : Nat × List (String × Nat) × List (String × Nat)) c =>
                  (a.1 + 1, bump a.2.1 (sevKeyOf c), bump a.2.2 (catKeyOf c))) (tc, sev, cat)).2.2,
               ss + scoreOf r) := by
          simp [summaryStep, hrr, ht]
        rw [hstep, hec, hes]
        obtain ⟨h1, h2, h3⟩ :=
          ih (((commentsOf r).foldl
            (fun (a : Nat × List (String × Nat) × List (String × Nat)) c =>
              (a.1 + 1, bump a.2.1 (sevKeyOf c), bump a.2.2 (catKeyOf c))) (tc, sev, cat)).1)
            (((commentsOf r).foldl
            (fun (a : Nat × List (String × Nat) × List (String × Nat)) c =>
              (a.1 + 1, bump a.2.1 (sevKeyOf c), bump a.2.2 (catKeyOf c))) (tc, sev, cat)).2.1)
            (((commentsOf r).foldl
            (fun (a : Nat × List (String × Nat) × List (String × Nat)) c =>
              (a.1 + 1, bump a.2.1 (sevKeyOf c), bump a.2.2 (catKeyOf c))) (tc, sev, cat)).2.2)
            (ss + scoreOf r)
        refine ⟨?_, ?_, ?_⟩
        · rw [h1, hc1]; omega
        · rw [h2, hc2]; omega
        · rw [h3]; ring

/-- Claim C5 (amended): over well-formed result rows, the severity
counters sum to the total number of findings; the total equals the sum
of the per-row finding counts; the stored average is the mean of the
scores rounded half-to-even to two decimals (the rounding is what the
code stores, and is the amendment to the claim); and the average over no
rows is exactly zero. -/
theorem C5_aggregate_invariants_amended (reviews : List ReviewEntry)
    (hwf : ∀ e ∈ reviews, entryWF e = true) :
    sumVals (generate_summary reviews).severity_distribution
        = (generate_summary reviews).total_comments
    ∧ (generate_summary reviews).total_comments
        = ((reviews.map fun e => (entryComments e).length).sum)
    ∧ (generate_summary reviews).average_score
        = round2 (if reviews.length = 0 then 0
            else ((reviews.map entryScore).sum) / (reviews.length : Rat))
    ∧ (reviews = [] → (generate_summary reviews).average_score = 0) := by
  obtain ⟨h1, h2, h3⟩ :=
    summary_fold_spec reviews 0 [("high", 0), ("medium", 0), ("low", 0)] [] 0
  have hinit : sumVals [("high", 0), ("medium", 0), ("low", 0)] = 0 := rfl
  refine ⟨?_, ?_, ?_, ?_⟩
  · simp only [generate_summary, h1, h2, hinit]
  · simp only [generate_summary, h1]
    omega
  · simp only [generate_summary, h3]
    cases reviews with
    | nil => simp
    | cons e rest =>
      have hpos : 0 < (e :: rest).length := by simp
      have hne : (e :: rest).length ≠ 0 := by simp
      simp only [if_pos hpos, if_neg hne]
      norm_num
  · intro hnil
    subst hnil
    with_unfolding_all rfl

/-- Claim C5 witness: two rows with scores 10 and 4, through the
theorem: the stored average is exactly 7. -/
theorem C5_aggregate_invariants_witness :
    (generate_summary
      [ReviewEntry.mk "a" (some (Json.obj [("overall_score", Json.num 10)])),
       ReviewEntry.mk "b" (some (Json.obj [("overall_score", Json.num 4)]))]).average_score
      = 7 := by
  have h := (C5_aggregate_invariants_amended
    [ReviewEntry.mk "a" (some (Json.obj [("overall_score", Json.num 10)])),
     ReviewEntry.mk "b" (some (Json.obj [("overall_score", Json.num 4)]))]
    (by with_unfolding_all decide)).2.2.1
  rw [h]
  with_unfolding_all rfl

/-- Claim C5 counterexample: with scores 1, 2 and 2 the stored average
is the rounded 1.67, not the exact mean 5/3 the claim asserts. -/
theorem C5_aggregate_invariants_counterexample :
    (generate_summary
      [ReviewEntry.mk "a" (some (Json.obj [("overall_score", Json.num 1)])),
       ReviewEntry.mk "b" (some (Json.obj [("overall_score", Json.num 2)])),
       ReviewEntry.mk "c" (some (Json.obj [("overall_score", Json.num 2)]))]).average_score
      = 167 / 100
    ∧ ((1 : Rat) + 2 + 2) / 3 = 5 / 3
    ∧ (generate_summary
      [ReviewEntry.mk "a" (some (Json.obj [("overall_score", Json.num 1)])),
       ReviewEntry.mk "b" (some (Json.obj [("overall_score", Json.num 2)])),
       ReviewEntry.mk "c" (some (Json.obj [("overall_score", Json.num 2)]))]).average_score
      ≠ 5 / 3 := by
  refine ⟨?_, ?_, ?_⟩
  · with_unfolding_all rfl
  · with_unfolding_all rfl
  · with_unfolding_all decide

/-- Claim C1 (amended): a file whose content fetch fails (or returns an
empty file) is skipped and produces no entry; but a review call that
fails does not make the file disappear — review_code returns an error
record instead of raising, _review_file wraps it into an entry, the
aggregate counts that file in totalFiles, and the row contributes the
default score 5 to the score sum the average divides. The batch is
compositional: the entries of a list of files are the concatenation of
the entries of its parts, so one file never affects the others. -/
theorem C1_review_failure_amended (fi : FileInfo) (msg content : String) (rc : Json)
    (fetch : String → Option String) (respond : String → ModelResponse)
    (files1 files2 : List FileInfo)
    (hc : content ≠ "") :
    review_file fi none rc = none
    ∧ review_file fi (some "") rc = none
    ∧ review_file fi (some content) (review_code (ModelResponse.raises msg))
        = some (ReviewEntry.mk (filePathOf fi) (some (Json.obj [("error", Json.str msg)])))
    ∧ (generate_summary
        [ReviewEntry.mk (filePathOf fi) (some (Json.obj [("error", Json.str msg)]))]
        ).total_files_reviewed = 1
    ∧ entryScore (ReviewEntry.mk (filePathOf fi)
        (some (Json.obj [("error", Json.str msg)]))) = 5
    ∧ run_reviews fetch respond (files1 ++ files2)
        = run_reviews fetch respond files1 ++ run_reviews fetch respond files2 := by
  refine ⟨rfl, rfl, ?_, ?_, ?_, ?_⟩
  · simp [review_file, review_code, hc]
  · rfl
  · with_unfolding_all rfl
  · induction files1 with
    | nil => rfl
    | cons fi0 rest ih =>
      simp only [List.cons_append, run_reviews]
      cases h : review_file fi0 (fetch (filePathOf fi0)) (review_code (respond (filePathOf fi0))) with
      | none => exact ih
      | some e => exact congrArg (List.cons e) ih

/-- Claim C1 witness: a successful fetch followed by a raising review
call still yields an entry carrying the error record, through the
theorem. -/
theorem C1_review_failure_witness :
    review_file (FileInfo.mk (some "a.py") "a.py" none none) (some "x")
        (review_code (ModelResponse.raises "boom"))
      = some (ReviewEntry.mk (filePathOf (FileInfo.mk (some "a.py") "a.py" none none))
          (some (Json.obj [("error", Json.str "boom")]))) :=
  (C1_review_failure_amended (FileInfo.mk (some "a.py") "a.py" none none) "boom" "x"
    Json.null (fun _ => some "x") (fun _ => ModelResponse.raises "boom") [] []
    (by decide)).2.2.1

/-- Claim C1 counterexample: with the fetch succeeding and the review
call raising, the claim predicts no result row (file skipped, zero
totalFiles, no default score); the code produces one row, counts the
file, and contributes the default score 5. -/
theorem C1_review_failure_counterexample :
    (run_reviews (fun _ => some "x") (fun _ => ModelResponse.raises "boom")
        [FileInfo.mk (some "a.py") "a.py" none none]).length = 1
    ∧ (generate_summary (run_reviews (fun _ => some "x")
        (fun _ => ModelResponse.raises "boom")
        [FileInfo.mk (some "a.py") "a.py" none none])).total_files_reviewed = 1
    ∧ (generate_summary (run_reviews (fun _ => some "x")
        (fun _ => ModelResponse.raises "boom")
        [FileInfo.mk (some "a.py") "a.py" none none])).average_score = 5 := by
  refine ⟨?_, ?_, ?_⟩
  · with_unfolding_all rfl
  · with_unfolding_all rfl
  · with_unfolding_all rfl

theorem lookup_objUpd_self (kvs : List (String × Json)) (k : String) (v : Json) :
    (objUpd kvs k v).lookup k = some v := by
  induction kvs with
  | nil => exact lookupConsSelf k v []
  | cons kv rest ih =>
    obtain ⟨k0, v0⟩ := kv
    by_cases h : k0 = k
    · subst h
      have hb : objUpd ((k0, v0) :: rest) k0 v = (k0, v) :: rest := by simp [objUpd]
      rw [hb]
      exact lookupConsSelf k0 v rest
    · have hb : objUpd ((k0, v0) :: rest) k v = (k0, v0) :: objUpd rest k v := by
        simp [objUpd, h]
      rw [hb, lookupConsNe k k0 _ _ (Ne.symm h)]
      exact ih

theorem lookup_objUpd_ne (kvs : List (String × Json)) (k k2 : String) (v : Json)
    (h : k ≠ k2) : (objUpd kvs k v).lookup k2 = kvs.lookup k2 := by
  induction kvs with
  | nil =>
    simp only [objUpd]
    rw [lookupConsNe k2 k _ _ (Ne.symm h)]
  | cons kv rest ih =>
    obtain ⟨k0, v0⟩ := kv
    by_cases hk : k0 = k
    · subst hk
      have hb : objUpd ((k0, v0) :: rest) k0 v = (k0, v) :: rest := by simp [objUpd]
      rw [hb, lookupConsNe k2 k0 _ _ (Ne.symm h), lookupConsNe k2 k0 _ _ (Ne.symm h)]
    · have hb : objUpd ((k0, v0) :: rest) k v = (k0, v0) :: objUpd rest k v := by
        simp [objUpd, hk]
      rw [hb]
      by_cases hk2 : k0 = k2
      · subst hk2
        rw [lookupConsSelf, lookupConsSelf]
      · rw [lookupConsNe k2 k0 _ _ (Ne.symm hk2), lookupConsNe k2 k0 _ _ (Ne.symm hk2), ih]

theorem lookup_fixList_ne (kvs : List (String × Json)) (k k2 : String) (h : k ≠ k2) :
    (fixListField kvs k).lookup k2 = kvs.lookup k2 := by
  cases hl : kvs.lookup k with
  | none =>
    simp only [fixListField, hl]
    exact lookup_objUpd_ne kvs k k2 _ h
  | some jv =>
    cases jv with
    | arr xs => simp only [fixListField, hl]
    | null => simp only [fixListField, hl]; exact lookup_objUpd_ne kvs k k2 _ h
    | bool b => simp only [fixListField, hl]; exact lookup_objUpd_ne kvs k k2 _ h
    | num q => simp only [fixListField, hl]; exact lookup_objUpd_ne kvs k k2 _ h
    | str s => simp only [fixListField, hl]; exact lookup_objUpd_ne kvs k k2 _ h
    | obj kvs2 => simp only [fixListField, hl]; exact lookup_objUpd_ne kvs k k2 _ h

theorem coerceSeverity_ok (sev : Json) :
    ∃ s, coerceSeverity sev = Json.str s
      ∧ (s == "low" || s == "medium" || s == "high") = true := by
  cases sev with
  | str s =>
    by_cases hb : (s == "low" || s == "medium" || s == "high") = true
    · refine ⟨s, ?_, hb⟩
      show (if (s == "low" || s == "medium" || s == "high") = true
          then Json.str s else Json.str "medium") = Json.str s
      rw [if_pos hb]
    · refine ⟨"medium", ?_, by decide⟩
      show (if (s == "low" || s == "medium" || s == "high") = true
          then Json.str s else Json.str "medium") = Json.str "medium"
      rw [if_neg hb]
  | null => exact ⟨"medium", rfl, by decide⟩
  | bool b => exact ⟨"medium", rfl, by decide⟩
  | num q => exact ⟨"medium", rfl, by decide⟩
  | arr xs => exact ⟨"medium", rfl, by decide⟩
  | obj kvs => exact ⟨"medium", rfl, by decide⟩

theorem coerceCategory_ok (cat : Json) :
    ∃ s, coerceCategory cat = Json.str s ∧ validCategories.contains s = true := by
  cases cat with
  | str s =>
    by_cases hb : validCategories.contains s = true
    · refine ⟨s, ?_, hb⟩
      show (if validCategories.contains s = true
          then Json.str s else Json.str "quality") = Json.str s
      rw [if_pos hb]
    · refine ⟨"quality", ?_, by decide⟩
      show (if validCategories.contains s = true
          then Json.str s else Json.str "quality") = Json.str "quality"
      rw [if_neg hb]
  | null => exact ⟨"quality", rfl, by decide⟩
  | bool b => exact ⟨"quality", rfl, by decide⟩
  | num q => exact ⟨"quality", rfl, by decide⟩
  | arr xs => exact ⟨"quality", rfl, by decide⟩
  | obj kvs => exact ⟨"quality", rfl, by decide⟩

theorem validateComment_validFinding (c v : Json) (h : validateComment c = some v) :
    validFinding v = true := by
  cases c with
  | obj kvs =>
    simp only [validateComment, Option.some.injEq] at h
    subst h
    simp only [validFinding, objHas]
    rw [lookupConsNe "severity" "line_number" _ _ (by decide), lookupConsSelf]
    rw [lookupConsNe "category" "line_number" _ _ (by decide),
      lookupConsNe "category" "severity" _ _ (by decide), lookupConsSelf]
    rw [lookupConsNe "title" "line_number" _ _ (by decide),
      lookupConsNe "title" "severity" _ _ (by decide),
      lookupConsNe "title" "category" _ _ (by decide), lookupConsSelf]
    rw [lookupConsNe "description" "line_number" _ _ (by decide),
      lookupConsNe "description" "severity" _ _ (by decide),
      lookupConsNe "description" "category" _ _ (by decide),
      lookupConsNe "description" "title" _ _ (by decide), lookupConsSelf]
    simp only [Option.isSome_some, Bool.and_true]
    rw [Bool.and_eq_true]
    obtain ⟨s1, hs1, hv1⟩ := coerceSeverity_ok ((kvs.lookup "severity").getD (Json.str "medium"))
    obtain ⟨s2, hs2, hv2⟩ := coerceCategory_ok ((kvs.lookup "category").getD (Json.str "quality"))
    rw [hs1, hs2]
    exact ⟨hv1, hv2⟩
  | null => cases h
  | bool b => cases h
  | num q => cases h
  | str s => cases h
  | arr xs => cases h

theorem filterMap_validateComment_all (xs : List Json) :
    (xs.filterMap validateComment).all validFinding = true := by
  induction xs with
  | nil => rfl
  | cons c rest ih =>
    cases h : validateComment c with
    | none => simpa [List.filterMap_cons, h] using ih
    | some v =>
      simp [List.filterMap_cons, h, List.all_cons, validateComment_validFinding c v h, ih]

theorem scoreFieldOf_bounds (kvs : List (String × Json)) :
    ∃ q : Rat, scoreFieldOf kvs = Json.num q ∧ 1 ≤ q ∧ q ≤ 10 := by
  unfold scoreFieldOf
  cases h : floatOf ((kvs.lookup "overall_score").getD Json.null) with
  | none => exact ⟨5, rfl, by norm_num, by norm_num⟩
  | some q =>
    exact ⟨max 1 (min 10 q), rfl, le_max_left _ _, max_le (by norm_num) (min_le_left _ _)⟩

theorem validate_ok_shape (j v : Json) (h : validate_review_result j = Except.ok v) :
    validShape v = true := by
  cases j with
  | obj kvs0 =>
    simp only [validate_review_result] at h
    cases hci : commentsIter (((objUpd (fillRequired kvs0) "overall_score"
        (scoreFieldOf (fillRequired kvs0))).lookup "comments").getD (Json.arr [])) with
    | none => rw [hci] at h; cases h
    | some xs =>
      rw [hci] at h
      simp only [Except.ok.injEq] at h
      subst h
      simp only [validShape]
      rw [lookup_fixList_ne _ "recommendations" "overall_score" (by decide),
        lookup_fixList_ne _ "positive_aspects" "overall_score" (by decide),
        lookup_objUpd_ne _ "comments" "overall_score" _ (by decide),
        lookup_objUpd_self]
      rw [lookup_fixList_ne _ "recommendations" "comments" (by decide),
        lookup_fixList_ne _ "positive_aspects" "comments" (by decide),
        lookup_objUpd_self]
      obtain ⟨q, hq, h1, h2⟩ := scoreFieldOf_bounds (fillRequired kvs0)
      rw [hq]
      show ((decide ((1 : Rat) ≤ q) && decide (q ≤ (10 : Rat)))
          && (xs.filterMap validateComment).all validFinding) = true
      rw [filterMap_validateComment_all, decide_eq_true h1, decide_eq_true h2]
      rfl
  | null => cases h
  | bool b => cases h
  | num q => cases h
  | str s => cases h
  | arr xs => cases h

theorem jsonLoads_emptyStr : jsonLoads "" = none := by
  with_unfolding_all rfl

/-- Claim C3 (amended): a response that parses directly as a JSON object
and validates successfully is returned exactly as validated, and the
validated result always lies in the Finding/FileReviewResult shape; a
response that does not parse goes through the fixed fallback chain —
fenced code block, else outermost brace span — and when neither strategy
yields parseable JSON the fixed synthetic result is returned, which
carries exactly one finding, of severity medium and category quality (a
successfully extracted payload, however, is returned without
validation, which is the amendment to the claim). -/
theorem C3_response_validation_amended (t : String) :
    (∀ kvs v, jsonLoads t = some (Json.obj kvs) →
        validate_review_result (Json.obj kvs) = Except.ok v →
        review_code (ModelResponse.text t) = v ∧ validShape v = true)
    ∧ (jsonLoads t = none → t ≠ "" →
        (∀ g, fencedScan t.toList = some g → jsonLoads (String.mk g) = none) →
        (∀ u, braceSpan t = some u → jsonLoads u = none) →
        review_code (ModelResponse.text t) = fallback_response)
    ∧ (commentsOf fallback_response).length = 1
    ∧ (∀ c ∈ commentsOf fallback_response,
        jget c "severity" = some (Json.str "medium")
          ∧ jget c "category" = some (Json.str "quality"))
    ∧ validShape fallback_response = true := by
  refine ⟨?_, ?_, ?_, ?_, ?_⟩
  · intro kvs v hparse hval
    have hne : t ≠ "" := by
      intro he
      rw [he, jsonLoads_emptyStr] at hparse
      cases hparse
    have hrc : review_code (ModelResponse.text t) = v := by
      simp only [review_code, if_neg hne, hparse, hval]
    exact ⟨hrc, validate_ok_shape _ v hval⟩
  · intro hparse hne hfen hbrace
    simp only [review_code, if_neg hne, hparse, extract_json_from_response]
    cases hf : fencedScan t.toList with
    | some g => simp [hfen g hf]
    | none =>
      cases hb : braceSpan t with
      | some u => simp [hbrace u hb]
      | none => simp
  · with_unfolding_all rfl
  · intro c hc
    rw [show commentsOf fallback_response = [Json.obj
        [("line_number", Json.null),
         ("severity", Json.str "medium"),
         ("category", Json.str "quality"),
         ("title", Json.str "Review Format Issue"),
         ("description", Json.str "The AI review response could not be properly parsed. Manual review may be needed."),
         ("suggestion", Json.str ""),
         ("impact", Json.str "Unable to provide detailed feedback")]]
      from by with_unfolding_all rfl] at hc
    have hcc := List.mem_singleton.mp hc
    subst hcc
    exact ⟨by with_unfolding_all rfl, by with_unfolding_all rfl⟩
  · with_unfolding_all rfl

/-- Claim C3 counterexample: a fenced markdown response whose payload
parses is returned without validation — the result keeps the raw score
99 and has no comments field, so it is not in the validated shape the
claim asserts for every response. -/
theorem C3_response_validation_counterexample :
    jsonLoads "```json\n\x7b\"overall_score\": 99\x7d\n```" = none
    ∧ review_code (ModelResponse.text "```json\n\x7b\"overall_score\": 99\x7d\n```")
        = Json.obj [("overall_score", Json.num 99)]
    ∧ validShape (review_code
        (ModelResponse.text "```json\n\x7b\"overall_score\": 99\x7d\n```")) = false := by
  refine ⟨?_, ?_, ?_⟩ <;> with_unfolding_all rfl
